import Mathlib

/-!
Verification of the temporal mask-fusion core of the `humanseg_lite` module
(`modules/image/semantic_segmentation/humanseg_lite/module.py`).

Images are shallowly embedded as dimension-carrying grids of rational pixel
values.  The segmentation network and the optical-flow estimator are external
collaborators and are taken as parameters.  Routines imported by `module.py`
from sibling files that are not part of the sources here (`data_feed.py`,
`optimal.py`) are modelled from the specification and marked as such.
-/

/-- Error taxonomy of the driver and the fusion core: `invalidInput` for a
spatial-dimension mismatch between current and previous frame state,
`runtimeError` for the CUDA environment check of `segment` / `video_segment`. -/
inductive SegError where
  | invalidInput
  | runtimeError
deriving DecidableEq

/-- A single-channel 2-D image: `rows` x `cols` grid of rational values
(embedding the numpy float arrays used for gray frames and confidence maps). -/
structure Img where
  rows : Nat
  cols : Nat
  px : Nat → Nat → ℚ

/-- A three-channel 2-D image (embedding the BGR frames). -/
structure Img3 where
  rows : Nat
  cols : Nat
  px : Nat → Nat → Fin 3 → ℚ

/-- An all-zero single-channel image, embedding `np.zeros((r, c))`. -/
def zeroImg (r c : Nat) : Img := ⟨r, c, fun _ _ => 0⟩

/-- A constant three-channel image, used as a concrete test frame. -/
def constImg3 (r c : Nat) (v : ℚ) : Img3 := ⟨r, c, fun _ _ _ => v⟩

/-- External `cv2.resize` primitive on a single-channel image.  Following the
OpenCV convention, `dsize` is `(output-columns, output-rows)`; pixels are
sampled from the source grid. -/
def resizeImg (img : Img) (dsize : Nat × Nat) : Img :=
  ⟨dsize.2, dsize.1, fun i j => img.px (i * img.rows / dsize.2) (j * img.cols / dsize.1)⟩

/-- External `cv2.resize` primitive on a three-channel image. -/
def resizeImg3 (img : Img3) (dsize : Nat × Nat) : Img3 :=
  ⟨dsize.2, dsize.1, fun i j c => img.px (i * img.rows / dsize.2) (j * img.cols / dsize.1) c⟩

/-- External `cv2.cvtColor(..., COLOR_BGR2GRAY)` primitive: collapses the three
channels of a frame into one intensity value per pixel. -/
def toGray (f : Img3) : Img :=
  ⟨f.rows, f.cols, fun i j => (f.px i j 0 + f.px i j 1 + f.px i j 2) / 3⟩

/-- External `cv2.GaussianBlur(img, (3, 3), 0)` primitive: the separable
`[1, 2, 1]` kernel normalised by 16, with replicated borders (out-of-range
neighbour indices are clamped to the grid). -/
def gaussianBlur3 (img : Img) : Img :=
  ⟨img.rows, img.cols, fun i j =>
    let p := fun a b => img.px (min a (img.rows - 1)) (min b (img.cols - 1))
    (p (i - 1) (j - 1) + 2 * p (i - 1) j + p (i - 1) (j + 1)
      + 2 * p i (j - 1) + 4 * p i j + 2 * p i (j + 1)
      + p (i + 1) (j - 1) + 2 * p (i + 1) j + p (i + 1) (j + 1)) / 16⟩

/-- Modelled from the spec: `preprocess_v` is defined in `data_feed.py`, which
is not among the sources; per the spec it brings the raw frame to the fixed
working resolution (`resize(image, width, height, interpolation)` primitive). -/
def preprocess_v (frame : Img3) (w h : Nat) : Img3 := resizeImg3 frame (w, h)

/-- The frame at working resolution fed to the network, `frame = preprocess_v(frame_org, 192, 192)`. -/
def working_frame (frame_org : Img3) : Img3 := preprocess_v frame_org 192 192

/-- The current gray frame of `video_stream_segment` / `video_segment`:
`cur_gray = cv2.resize(cv2.cvtColor(frame, COLOR_BGR2GRAY), (192, 192))`. -/
def cur_gray_of (frame_org : Img3) : Img :=
  resizeImg (toGray (working_frame frame_org)) (192, 192)

/-- The black-box segmentation predictor: maps the preprocessed frame to the
foreground-class probability at each working-resolution pixel (the channel-1
slice of the network output). -/
abbrev NetT := Img3 → Nat → Nat → ℚ

/-- The raw confidence map `score_map = 255 * score_map[:, :, 1]` at the
192 x 192 working resolution. -/
def score_map_of (net : NetT) (frame_org : Img3) : Img :=
  ⟨192, 192, fun i j => 255 * net (working_frame frame_org) i j⟩

/-- Modelled from the spec: `threshold_mask` is defined in `optimal.py`, which
is not among the sources.  Per the spec it is hysteresis/soft thresholding on
the `[0, 255]` confidence scale: values at or below `thresh_bg` of the scale
map to 0, values at or above `thresh_fg` of the scale map to 1, and values in
between go through a monotonic linear ramp producing a soft alpha. -/
def threshold_mask_val (v thresh_bg thresh_fg : ℚ) : ℚ :=
  max 0 (min 1 ((v / 255 - thresh_bg) / (thresh_fg - thresh_bg)))

/-- Modelled from the spec: pixel-wise `threshold_mask` on a confidence map. -/
def threshold_mask (img : Img) (thresh_bg thresh_fg : ℚ) : Img :=
  ⟨img.rows, img.cols, fun i j => threshold_mask_val (img.px i j) thresh_bg thresh_fg⟩

/-- Lines 199-200 / 274-275 of `module.py`: the finalization applied to the
fused map, `threshold_mask(cv2.GaussianBlur(optflow_map, (3, 3), 0), 0.2, 0.8)`. -/
def finalize_map (fused : Img) : Img :=
  threshold_mask (gaussianBlur3 fused) (1 / 5) (4 / 5)

/-- Claim C4: with thresholds (0.2, 0.8) of the 255 confidence scale, the
hysteresis thresholding returns 0 at or below `0.2 * 255 = 51`, returns 1 at or
above `0.8 * 255 = 204`, returns a value strictly between 0 and 1 in between,
and is monotonically non-decreasing in the confidence value. -/
theorem threshold_mask_hysteresis (v w : ℚ) :
    (v ≤ (1 / 5) * 255 → threshold_mask_val v (1 / 5) (4 / 5) = 0) ∧
    ((4 / 5) * 255 ≤ v → threshold_mask_val v (1 / 5) (4 / 5) = 1) ∧
    ((1 / 5) * 255 < v → v < (4 / 5) * 255 →
      0 < threshold_mask_val v (1 / 5) (4 / 5) ∧ threshold_mask_val v (1 / 5) (4 / 5) < 1) ∧
    (v ≤ w → threshold_mask_val v (1 / 5) (4 / 5) ≤ threshold_mask_val w (1 / 5) (4 / 5)) := by
  have hx : ∀ u : ℚ, (u / 255 - 1 / 5) / (4 / 5 - 1 / 5) = u / 153 - 1 / 3 := by
    intro u; ring
  refine ⟨?_, ?_, ?_, ?_⟩
  · intro h
    have h1 : v / 153 - 1 / 3 ≤ 0 := by linarith
    have h2 : min 1 (v / 153 - 1 / 3) ≤ 0 := le_trans (min_le_right _ _) h1
    simp only [threshold_mask_val, hx]
    exact max_eq_left h2
  · intro h
    have h1 : (1 : ℚ) ≤ v / 153 - 1 / 3 := by linarith
    simp only [threshold_mask_val, hx, min_eq_left h1]
    exact max_eq_right (by norm_num)
  · intro h1 h2
    have hl : (0 : ℚ) < v / 153 - 1 / 3 := by linarith
    have hr : v / 153 - 1 / 3 < 1 := by linarith
    simp only [threshold_mask_val, hx, min_eq_right (le_of_lt hr)]
    constructor
    · rw [max_eq_right (le_of_lt hl)]; exact hl
    · exact lt_of_le_of_lt (max_le (by linarith) (le_refl _)) hr
  · intro h
    have h1 : v / 153 - 1 / 3 ≤ w / 153 - 1 / 3 := by linarith
    simp only [threshold_mask_val, hx]
    exact max_le_max (le_refl 0) (min_le_min (le_refl 1) h1)

/-- Witness for C4: the thresholding evaluated at 51 (exact background
threshold), 204 (exact foreground threshold), and the interior points 100 and
150. -/
theorem threshold_mask_hysteresis_witness :
    threshold_mask_val 51 (1 / 5) (4 / 5) = 0 ∧
    threshold_mask_val 204 (1 / 5) (4 / 5) = 1 ∧
    (0 < threshold_mask_val 100 (1 / 5) (4 / 5) ∧ threshold_mask_val 100 (1 / 5) (4 / 5) < 1) ∧
    threshold_mask_val 100 (1 / 5) (4 / 5) ≤ threshold_mask_val 150 (1 / 5) (4 / 5) := by
  refine ⟨?_, ?_, ?_, ?_⟩
  · exact (threshold_mask_hysteresis 51 51).1 (by norm_num)
  · exact (threshold_mask_hysteresis 204 204).2.1 (by norm_num)
  · exact (threshold_mask_hysteresis 100 100).2.2.1 (by norm_num) (by norm_num)
  · exact (threshold_mask_hysteresis 100 150).2.2.2 (by norm_num)

/-- The external dense optical-flow estimator (`cv2.DISOpticalFlow`), abstract:
`warp` aligns the previous fused map with the current frame along the flow
between the two gray frames, and `mag` gives the per-pixel motion magnitude. -/
structure FlowEst where
  warp : Img → Img → Img → Img
  mag : Img → Img → Nat → Nat → ℚ

/-- Modelled from the spec: the motion-confidence weight, a monotonically
decreasing function of the motion magnitude clamped to `[0, 1]`. -/
def motionWeight (m : ℚ) : ℚ := max 0 (min 1 (1 - m))

/-- Clamp a confidence value to the `[0, 255]` scale. -/
def clamp255 (v : ℚ) : ℚ := max 0 (min 255 v)

/-- Modelled from the spec: `postprocess_v` is defined in `optimal.py`, which
is not among the sources.  Per the spec contract
`fuse(currentConfidence, currentGray, state, isInit)`: a spatial-dimension
mismatch between the current and previous gray frame is an `InvalidInputError`
(never a silent resize); on `isInit` the previous-frame contribution is
suppressed so the fused result equals the current raw confidence map;
otherwise the previous fused map is warped along the flow and blended with the
current map under the motion-confidence weight, clamped to `[0, 255]`. -/
def postprocess_v (fe : FlowEst) (cur_gray score_map prev_gray prev_cfd : Img)
    (is_init : Bool) : Except SegError Img :=
  if cur_gray.rows = prev_gray.rows ∧ cur_gray.cols = prev_gray.cols then
    if is_init then
      .ok score_map
    else
      let warped := fe.warp prev_gray cur_gray prev_cfd
      .ok ⟨cur_gray.rows, cur_gray.cols, fun i j =>
        let w := motionWeight (fe.mag prev_gray cur_gray i j)
        clamp255 (w * warped.px i j + (1 - w) * score_map.px i j)⟩
  else
    .error .invalidInput

/-- Lines 172 and 192-197 of `module.py`: the previous-state arguments and the
`is_init` flag handed to `postprocess_v` by `video_stream_segment`.  The local
`is_init = True` is set once before the conditional and both branches pass it
unchanged; only `prev_gray` / `prev_cfd` are replaced by zero images when
`frame_id == 1`. -/
def vss_fusion_args (frame_id : Nat) (prev_gray prev_cfd : Img) : Img × Img × Bool :=
  let is_init := true
  if frame_id = 1 then
    (zeroImg 192 192, zeroImg 192 192, is_init)
  else
    (prev_gray, prev_cfd, is_init)

/-- Lines 153-203 of `module.py`, `video_stream_segment`: preprocess the frame,
run the predictor selected by `use_gpu`, fuse via `postprocess_v`, then blur,
threshold, and resize the map back to the original frame's size
(`width = shape[0]`, `height = shape[1]`, `dsize = (height, width)`).
Returns `[img_matting, cur_gray, optflow_map]`. -/
def video_stream_segment (netCpu netGpu : NetT) (fe : FlowEst) (frame_org : Img3)
    (frame_id : Nat) (prev_gray prev_cfd : Img) (use_gpu : Bool) :
    Except SegError (Img × Img × Img) :=
  let net := if use_gpu then netGpu else netCpu
  let args := vss_fusion_args frame_id prev_gray prev_cfd
  match postprocess_v fe (cur_gray_of frame_org) (score_map_of net frame_org)
      args.1 args.2.1 args.2.2 with
  | .error e => .error e
  | .ok fused =>
    let optflow_map := finalize_map fused
    let img_matting := resizeImg optflow_map (frame_org.cols, frame_org.rows)
    .ok (img_matting, cur_gray_of frame_org, optflow_map)

/-- The value `video_stream_segment` returns on the `frame_id == 1` path:
the matte, gray frame, and finalized map all derived from the raw confidence
map alone (the fusion output on init is the raw `score_map`). -/
def vss_init_result (net : NetT) (frame_org : Img3) : Img × Img × Img :=
  (resizeImg (finalize_map (score_map_of net frame_org)) (frame_org.cols, frame_org.rows),
   cur_gray_of frame_org,
   finalize_map (score_map_of net frame_org))

/-- Line 277 of `module.py`: `np.repeat(img_matting[:, :, np.newaxis], 3, axis=2)`,
broadcasting the single-channel matte across the three channels. -/
def repeat3 (m : Img) : Img3 := ⟨m.rows, m.cols, fun i j _ => m.px i j⟩

/-- Line 278 of `module.py`: `bg_im = np.ones_like(img_matting) * 255`, the
solid white background. -/
def bg_im (f : Img3) : Img3 := ⟨f.rows, f.cols, fun _ _ _ => 255⟩

/-- The `astype(np.uint8)` cast applied to the composited float pixel:
truncation toward zero (floor for the non-negative values produced here),
reduced modulo 256. -/
def toUint8 (q : ℚ) : ℕ := (⌊q⌋).toNat % 256

/-- Line 279 of `module.py`:
`comb = (img_matting * frame_org + (1 - img_matting) * bg_im).astype(np.uint8)`. -/
def composite (img_matting : Img) (frame_org : Img3) : Img3 :=
  let m3 := repeat3 img_matting
  let bg := bg_im (repeat3 img_matting)
  ⟨frame_org.rows, frame_org.cols, fun i j c =>
    ((toUint8 (m3.px i j c * frame_org.px i j c + (1 - m3.px i j c) * bg.px i j c) : ℕ) : ℚ)⟩

/-- Lines 251-280 of `module.py`: the body of one iteration of the
`video_segment` frame loop.  Fuses via `postprocess_v`, stores
`prev_gray = cur_gray` and `prev_cfd = optflow_map` BEFORE the Gaussian blur
and thresholding, then finalizes, resizes to the capture size
(`dsize = (width, height)` with `width` the column count), and composites
against the white background.  Returns the new state and the written frame. -/
def video_segment_step (net : NetT) (fe : FlowEst) (state : Img × Img)
    (is_init : Bool) (frame_org : Img3) : Except SegError ((Img × Img) × Img3) :=
  match postprocess_v fe (cur_gray_of frame_org) (score_map_of net frame_org)
      state.1 state.2 is_init with
  | .error e => .error e
  | .ok optflow_map =>
    let prev_gray := cur_gray_of frame_org
    let prev_cfd := optflow_map
    let om := finalize_map optflow_map
    let img_matting := resizeImg om (frame_org.cols, frame_org.rows)
    .ok ((prev_gray, prev_cfd), composite img_matting frame_org)

/-- The `video_segment` frame loop: the state and the `is_init` flag are
threaded through the iterations exactly as the source threads its locals (the
flag is never reassigned inside the loop). -/
def video_segment_go (net : NetT) (fe : FlowEst) (state : Img × Img)
    (is_init : Bool) : List Img3 → Except SegError ((Img × Img) × List Img3)
  | [] => .ok (state, [])
  | f :: rest =>
    match video_segment_step net fe state is_init f with
    | .error e => .error e
    | .ok p =>
      match video_segment_go net fe p.1 is_init rest with
      | .error e => .error e
      | .ok q => .ok (q.1, p.2 :: q.2)

/-- Tests whether `CUDA_VISIBLE_DEVICES` is set and its first character parses
as a decimal digit — the condition under which `int(_places[0])` succeeds in
the `use_gpu` checks of `segment` and `video_segment`. -/
def cudaEnvOk : Option String → Bool
  | none => false
  | some s =>
    match s.data with
    | [] => false
    | c :: _ => c.isDigit

/-- Lines 205-284 of `module.py`, `video_segment`: the CUDA environment check
runs first when `use_gpu` is requested (raising `RuntimeError` before any
frame is read), then the loop starts from the all-zero state with
`is_init = True`. -/
def video_segment (env : Option String) (use_gpu : Bool) (netCpu netGpu : NetT)
    (fe : FlowEst) (frames : List Img3) : Except SegError ((Img × Img) × List Img3) :=
  if use_gpu && !cudaEnvOk env then
    .error .runtimeError
  else
    video_segment_go (if use_gpu then netGpu else netCpu) fe
      (zeroImg 192 192, zeroImg 192 192) true frames

/-- Lines 113-151 of `module.py`: the batching loop of `segment`.
`loop_num = ceil(n / batch_size)`; batch `iter_id` collects the elements at
indices `iter_id * batch_size + image_id` for `image_id < batch_size` that
exist (`try/except pass`), and each collected element is processed in order
(`f` embeds the predictor run plus per-image `postprocess`). -/
def segment_res {α β : Type} (f : α → β) (all_data : List α) (batch_size : Nat) : List β :=
  let total_num := all_data.length
  let loop_num := (total_num + batch_size - 1) / batch_size
  (List.range loop_num).flatMap fun iter_id =>
    ((List.range batch_size).filterMap fun image_id =>
      all_data[iter_id * batch_size + image_id]?).map f

namespace HumanSeg

/-- Lines 80-151 of `module.py`, `segment`: the CUDA environment check runs
first when `use_gpu` is requested, before reading any input; otherwise the
batching loop processes every image. -/
def segment {α β : Type} (env : Option String) (use_gpu : Bool) (f : α → β)
    (images : List α) (batch_size : Nat) : Except SegError (List β) :=
  if use_gpu && !cudaEnvOk env then
    .error .runtimeError
  else
    .ok (segment_res f images batch_size)

end HumanSeg

/-- A predictor that reports full foreground probability everywhere. -/
def netOne : NetT := fun _ _ _ => 1

/-- A trivial flow estimator: zero motion, warp returns the previous map. -/
def trivialFlow : FlowEst := ⟨fun _ _ pc => pc, fun _ _ _ _ => 0⟩

/-- A concrete 1 x 1 test frame with all channels at 100. -/
def cf1 : Img3 := constImg3 1 1 100

/-- A concrete 1 x 1 matte with value one half. -/
def matteHalf : Img := ⟨1, 1, fun _ _ => 1 / 2⟩

/-- A concrete 1 x 1 matte with value one. -/
def matteOne : Img := ⟨1, 1, fun _ _ => 1⟩

/-- Unfolding lemma: with `frame_id = 1` and `use_gpu = false`,
`video_stream_segment` succeeds with the init-path result (the caller-supplied
state is discarded, the fusion output is the raw confidence map). -/
theorem vss_frame1 (netCpu netGpu : NetT) (fe : FlowEst) (frame_org : Img3)
    (prev_gray prev_cfd : Img) :
    video_stream_segment netCpu netGpu fe frame_org 1 prev_gray prev_cfd false =
      .ok (vss_init_result netCpu frame_org) := rfl

/-- Unfolding lemma: with `frame_id = 1` and `use_gpu = true`, the GPU
predictor is selected and `video_stream_segment` succeeds likewise. -/
theorem vss_frame1_gpu (netCpu netGpu : NetT) (fe : FlowEst) (frame_org : Img3)
    (prev_gray prev_cfd : Img) :
    video_stream_segment netCpu netGpu fe frame_org 1 prev_gray prev_cfd true =
      .ok (vss_init_result netGpu frame_org) := rfl

/-- Helper: a successful fusion call returns either the raw confidence map
(init path) or a map with the current gray frame's dimensions (fusion path). -/
theorem ppv_ok_dims (fe : FlowEst) (cg sm pg pc : Img) (b : Bool) (fused : Img)
    (h : postprocess_v fe cg sm pg pc b = .ok fused) :
    fused = sm ∨ (fused.rows = cg.rows ∧ fused.cols = cg.cols) := by
  unfold postprocess_v at h
  split at h
  · split at h
    · injection h with h
      exact Or.inl h.symm
    · injection h with h
      subst h
      exact Or.inr ⟨rfl, rfl⟩
  · exact absurd h (by simp)

/-- Claim C1 (counterexample): the claim says the `isInit` flag handed to
`postprocess_v` is false for every frame after the first; but at
`frame_id = 2` the flag `video_stream_segment` passes is still `true` (the
local `is_init = True` is set before the conditional and never varied). -/
theorem is_init_frame2_not_false :
    (vss_fusion_args 2 (zeroImg 192 192) (zeroImg 192 192)).2.2 ≠ false := by decide

/-- Claim C1 (amended): the `is_init` flag `video_stream_segment` passes to
`postprocess_v` is `true` for EVERY `frame_id`, not only the first frame, and
the `video_segment` frame loop likewise hands `is_init = true` to every
iteration: the first frame of the loop is processed with the flag `true` and
the recursive tail continues with the same unchanged `true`. -/
theorem is_init_always_true (frame_id : Nat) (prev_gray prev_cfd : Img)
    (net : NetT) (fe : FlowEst) (state : Img × Img) (f : Img3) (rest : List Img3) :
    (vss_fusion_args frame_id prev_gray prev_cfd).2.2 = true ∧
    video_segment_go net fe state true (f :: rest) =
      (match video_segment_step net fe state true f with
       | .error e => .error e
       | .ok p =>
         match video_segment_go net fe p.1 true rest with
         | .error e => .error e
         | .ok q => .ok (q.1, p.2 :: q.2)) := by
  constructor
  · unfold vss_fusion_args
    split <;> rfl
  · rfl

/-- Claim C6: at `frame_id = 1` the caller-supplied state is discarded and
replaced by all-zero 192 x 192 images before fusion, and the resulting matte
is exactly the blurred/thresholded path output of the current raw confidence
map (no bias from the uninitialized state); for any other `frame_id` the
supplied `prev_gray` / `prev_cfd` are passed to fusion unchanged. -/
theorem frame1_zero_state_reset (net netG : NetT) (fe : FlowEst) (frame_org : Img3)
    (prev_gray prev_cfd : Img) (fid : Nat) :
    vss_fusion_args 1 prev_gray prev_cfd = (zeroImg 192 192, zeroImg 192 192, true) ∧
    (fid ≠ 1 → vss_fusion_args fid prev_gray prev_cfd = (prev_gray, prev_cfd, true)) ∧
    video_stream_segment net netG fe frame_org 1 prev_gray prev_cfd false =
      .ok (vss_init_result net frame_org) ∧
    (vss_init_result net frame_org).1 =
      resizeImg (finalize_map (score_map_of net frame_org)) (frame_org.cols, frame_org.rows) := by
  refine ⟨rfl, ?_, vss_frame1 net netG fe frame_org prev_gray prev_cfd, rfl⟩
  intro h
  simp [vss_fusion_args, h]

/-- Witness for C6: at the concrete `frame_id = 2` the supplied state passes
through unchanged. -/
theorem frame1_zero_state_reset_witness :
    (2 ≠ 1) ∧
    vss_fusion_args 2 (zeroImg 5 5) (zeroImg 7 7) = (zeroImg 5 5, zeroImg 7 7, true) :=
  ⟨by decide,
   (frame1_zero_state_reset netOne netOne trivialFlow cf1 (zeroImg 5 5) (zeroImg 7 7) 2).2.1
     (by decide)⟩

/-- Claim C7: a spatial-dimension mismatch between the current gray frame and
the previous gray frame makes the fusion call fail synchronously with
`InvalidInputError`; a successful call certifies the dimensions matched (no
silent resize); and the failure propagates out of `video_stream_segment` as
the bare error, returning no new state to the caller. -/
theorem fusion_dim_mismatch_error (fe : FlowEst) (cur_gray score_map prev_gray prev_cfd : Img)
    (b : Bool)
    (hmis : cur_gray.rows ≠ prev_gray.rows ∨ cur_gray.cols ≠ prev_gray.cols) :
    postprocess_v fe cur_gray score_map prev_gray prev_cfd b = .error .invalidInput ∧
    (∀ (cg pg fused : Img), postprocess_v fe cg score_map pg prev_cfd b = .ok fused →
      cg.rows = pg.rows ∧ cg.cols = pg.cols) ∧
    (∀ (netCpu netGpu : NetT) (frame_org : Img3) (fid : Nat) (pg pc : Img) (g : Bool),
      fid ≠ 1 → pg.rows ≠ 192 →
      video_stream_segment netCpu netGpu fe frame_org fid pg pc g = .error .invalidInput) := by
  refine ⟨?_, ?_, ?_⟩
  · unfold postprocess_v
    rw [if_neg]
    intro hc
    exact hmis.elim (fun hr => hr hc.1) (fun hc2 => hc2 hc.2)
  · intro cg pg fused h
    unfold postprocess_v at h
    split at h
    case isTrue hc => exact hc
    case isFalse => exact absurd h (by simp)
  · intro netCpu netGpu frame_org fid pg pc g hfid hpg
    have hargs : vss_fusion_args fid pg pc = (pg, pc, true) := by
      simp [vss_fusion_args, hfid]
    have herr : postprocess_v fe (cur_gray_of frame_org)
        (score_map_of (if g then netGpu else netCpu) frame_org) pg pc true =
        .error .invalidInput := by
      unfold postprocess_v
      rw [if_neg]
      intro hc
      exact hpg hc.1.symm
    simp [video_stream_segment, hargs, herr]

/-- Witness for C7: a 5 x 5 current gray frame against a 3 x 3 previous gray
frame fails with `InvalidInputError`. -/
theorem fusion_dim_mismatch_error_witness :
    ((zeroImg 5 5).rows ≠ (zeroImg 3 3).rows ∨ (zeroImg 5 5).cols ≠ (zeroImg 3 3).cols) ∧
    postprocess_v trivialFlow (zeroImg 5 5) (zeroImg 5 5) (zeroImg 3 3) (zeroImg 3 3) true =
      .error .invalidInput :=
  ⟨Or.inl (by decide),
   (fusion_dim_mismatch_error trivialFlow (zeroImg 5 5) (zeroImg 5 5) (zeroImg 3 3)
     (zeroImg 3 3) true (Or.inl (by decide))).1⟩

/-- Claim C5: whenever `video_stream_segment` succeeds, the returned matte
`img_matting` has exactly the spatial dimensions of the original input frame
(the `width = shape[0]` / `height = shape[1]` swap cancels against the
column-first `dsize` convention of the resize primitive), independent of the
192 x 192 working resolution. -/
theorem matting_shape_roundtrip (netCpu netGpu : NetT) (fe : FlowEst) (frame_org : Img3)
    (frame_id : Nat) (prev_gray prev_cfd : Img) (use_gpu : Bool) (m g om : Img)
    (h : video_stream_segment netCpu netGpu fe frame_org frame_id prev_gray prev_cfd use_gpu =
      .ok (m, g, om)) :
    m.rows = frame_org.rows ∧ m.cols = frame_org.cols := by
  simp only [video_stream_segment] at h
  cases hpp : postprocess_v fe (cur_gray_of frame_org)
      (score_map_of (if use_gpu then netGpu else netCpu) frame_org)
      (vss_fusion_args frame_id prev_gray prev_cfd).1
      (vss_fusion_args frame_id prev_gray prev_cfd).2.1
      (vss_fusion_args frame_id prev_gray prev_cfd).2.2 with
  | error e =>
    rw [hpp] at h
    exact absurd h (by simp)
  | ok fused =>
    rw [hpp] at h
    simp only [Except.ok.injEq, Prod.mk.injEq] at h
    obtain ⟨hm, _, _⟩ := h
    subst hm
    exact ⟨rfl, rfl⟩

/-- Witness for C5: on the concrete 1 x 1 frame the returned matte is 1 x 1. -/
theorem matting_shape_roundtrip_witness :
    video_stream_segment netOne netOne trivialFlow cf1 1 (zeroImg 192 192) (zeroImg 192 192)
      false = .ok (vss_init_result netOne cf1) ∧
    (vss_init_result netOne cf1).1.rows = cf1.rows ∧
    (vss_init_result netOne cf1).1.cols = cf1.cols :=
  ⟨vss_frame1 netOne netOne trivialFlow cf1 (zeroImg 192 192) (zeroImg 192 192),
   (matting_shape_roundtrip netOne netOne trivialFlow cf1 1 (zeroImg 192 192)
     (zeroImg 192 192) false (vss_init_result netOne cf1).1
     (vss_init_result netOne cf1).2.1 (vss_init_result netOne cf1).2.2
     (vss_frame1 netOne netOne trivialFlow cf1 (zeroImg 192 192) (zeroImg 192 192))).1,
   (matting_shape_roundtrip netOne netOne trivialFlow cf1 1 (zeroImg 192 192)
     (zeroImg 192 192) false (vss_init_result netOne cf1).1
     (vss_init_result netOne cf1).2.1 (vss_init_result netOne cf1).2.2
     (vss_frame1 netOne netOne trivialFlow cf1 (zeroImg 192 192) (zeroImg 192 192))).2⟩

/-- Claim C3: on every frame whose fusion succeeds, the finalization applies
exactly, and in this order: the 3 x 3 Gaussian blur to the fused map (after
fusion, never before it), then hysteresis thresholding with thresholds
(0.2, 0.8), then the resize from the 192 x 192 working resolution to the
output resolution. -/
theorem finalize_order_blur_threshold_resize (netCpu netGpu : NetT) (fe : FlowEst)
    (frame_org : Img3) (frame_id : Nat) (prev_gray prev_cfd : Img) (fused : Img)
    (hok : postprocess_v fe (cur_gray_of frame_org) (score_map_of netCpu frame_org)
      (vss_fusion_args frame_id prev_gray prev_cfd).1
      (vss_fusion_args frame_id prev_gray prev_cfd).2.1
      (vss_fusion_args frame_id prev_gray prev_cfd).2.2 = .ok fused) :
    video_stream_segment netCpu netGpu fe frame_org frame_id prev_gray prev_cfd false =
      .ok (resizeImg (threshold_mask (gaussianBlur3 fused) (1 / 5) (4 / 5))
             (frame_org.cols, frame_org.rows),
           cur_gray_of frame_org,
           threshold_mask (gaussianBlur3 fused) (1 / 5) (4 / 5)) ∧
    fused.rows = 192 ∧ fused.cols = 192 := by
  constructor
  · simp [video_stream_segment, hok, finalize_map]
  · rcases ppv_ok_dims fe (cur_gray_of frame_org) (score_map_of netCpu frame_org)
        (vss_fusion_args frame_id prev_gray prev_cfd).1
        (vss_fusion_args frame_id prev_gray prev_cfd).2.1
        (vss_fusion_args frame_id prev_gray prev_cfd).2.2 fused hok with h | h
    · subst h
      exact ⟨rfl, rfl⟩
    · exact ⟨h.1, h.2⟩

/-- Witness for C3: the concrete first frame, where fusion returns the raw
confidence map and the pipeline output is its blur, threshold, and resize. -/
theorem finalize_order_witness :
    postprocess_v trivialFlow (cur_gray_of cf1) (score_map_of netOne cf1)
      (vss_fusion_args 1 (zeroImg 192 192) (zeroImg 192 192)).1
      (vss_fusion_args 1 (zeroImg 192 192) (zeroImg 192 192)).2.1
      (vss_fusion_args 1 (zeroImg 192 192) (zeroImg 192 192)).2.2 =
        .ok (score_map_of netOne cf1) ∧
    video_stream_segment netOne netOne trivialFlow cf1 1 (zeroImg 192 192) (zeroImg 192 192)
      false =
      .ok (resizeImg (threshold_mask (gaussianBlur3 (score_map_of netOne cf1)) (1 / 5) (4 / 5))
             (cf1.cols, cf1.rows),
           cur_gray_of cf1,
           threshold_mask (gaussianBlur3 (score_map_of netOne cf1)) (1 / 5) (4 / 5)) ∧
    (score_map_of netOne cf1).rows = 192 :=
  ⟨rfl,
   (finalize_order_blur_threshold_resize netOne netOne trivialFlow cf1 1 (zeroImg 192 192)
     (zeroImg 192 192) (score_map_of netOne cf1) rfl).1,
   (finalize_order_blur_threshold_resize netOne netOne trivialFlow cf1 1 (zeroImg 192 192)
     (zeroImg 192 192) (score_map_of netOne cf1) rfl).2.1⟩

/-- Claim C2 (counterexample): the claim says the confidence-map component
returned by `video_stream_segment` (its `optflow_map`) equals the fusion
output before blur and thresholding, i.e. the value `video_segment` stores
into `prev_cfd`.  On the concrete all-foreground 1 x 1 frame the returned map
holds 1 (post-threshold scale) while the loop stores 255 (pre-threshold
confidence scale): the returned map is the blurred/thresholded matte, not the
stored fused map. -/
theorem returned_optflow_map_ne_stored_prev_cfd :
    (video_stream_segment netOne netOne trivialFlow cf1 1 (zeroImg 192 192) (zeroImg 192 192)
        false).map (fun r => r.2.2.px 0 0) = .ok 1 ∧
    (video_segment_step netOne trivialFlow (zeroImg 192 192, zeroImg 192 192) true cf1).map
      (fun r => r.1.2.px 0 0) = .ok 255 ∧
    (Except.ok 1 : Except SegError ℚ) ≠ Except.ok 255 := by
  refine ⟨?_, ?_, ?_⟩
  · rw [vss_frame1]
    simp [Except.map, vss_init_result, finalize_map, threshold_mask, threshold_mask_val,
      gaussianBlur3, score_map_of, netOne]
    norm_num [min_def, max_def]
  · simp [video_segment_step, postprocess_v, Except.map, score_map_of, netOne, cur_gray_of,
      resizeImg, zeroImg]
  · intro h
    injection h with h
    norm_num at h

/-- Claim C2 (amended): the confidence map `video_stream_segment` hands back is
the fused map AFTER the Gaussian blur and hysteresis thresholding (the
variable is overwritten by the finalization before the return), while the
`video_segment` loop stores into `prev_cfd` the fused map BEFORE blur and
thresholding; the two paths thread different values. -/
theorem returned_map_is_finalized_stored_is_prefused (net netG : NetT) (fe : FlowEst)
    (frame_org : Img3) (frame_id : Nat) (prev_gray prev_cfd : Img) (state : Img × Img)
    (b : Bool) (fused fused2 : Img)
    (h1 : postprocess_v fe (cur_gray_of frame_org) (score_map_of net frame_org)
      (vss_fusion_args frame_id prev_gray prev_cfd).1
      (vss_fusion_args frame_id prev_gray prev_cfd).2.1
      (vss_fusion_args frame_id prev_gray prev_cfd).2.2 = .ok fused)
    (h2 : postprocess_v fe (cur_gray_of frame_org) (score_map_of net frame_org)
      state.1 state.2 b = .ok fused2) :
    video_stream_segment net netG fe frame_org frame_id prev_gray prev_cfd false =
      .ok (resizeImg (finalize_map fused) (frame_org.cols, frame_org.rows),
           cur_gray_of frame_org, finalize_map fused) ∧
    video_segment_step net fe state b frame_org =
      .ok ((cur_gray_of frame_org, fused2),
           composite (resizeImg (finalize_map fused2) (frame_org.cols, frame_org.rows))
             frame_org) := by
  constructor
  · simp [video_stream_segment, h1]
  · simp [video_segment_step, h2]

/-- Witness for the amended C2: the concrete first frame, on which both
hypotheses hold by computation. -/
theorem returned_map_witness :
    postprocess_v trivialFlow (cur_gray_of cf1) (score_map_of netOne cf1)
      (vss_fusion_args 1 (zeroImg 192 192) (zeroImg 192 192)).1
      (vss_fusion_args 1 (zeroImg 192 192) (zeroImg 192 192)).2.1
      (vss_fusion_args 1 (zeroImg 192 192) (zeroImg 192 192)).2.2 =
        .ok (score_map_of netOne cf1) ∧
    video_stream_segment netOne netOne trivialFlow cf1 1 (zeroImg 192 192) (zeroImg 192 192)
      false =
      .ok (resizeImg (finalize_map (score_map_of netOne cf1)) (cf1.cols, cf1.rows),
           cur_gray_of cf1, finalize_map (score_map_of netOne cf1)) ∧
    video_segment_step netOne trivialFlow (zeroImg 192 192, zeroImg 192 192) true cf1 =
      .ok ((cur_gray_of cf1, score_map_of netOne cf1),
           composite (resizeImg (finalize_map (score_map_of netOne cf1)) (cf1.cols, cf1.rows))
             cf1) :=
  ⟨rfl,
   (returned_map_is_finalized_stored_is_prefused netOne netOne trivialFlow cf1 1
     (zeroImg 192 192) (zeroImg 192 192) (zeroImg 192 192, zeroImg 192 192) true
     (score_map_of netOne cf1) (score_map_of netOne cf1) rfl rfl).1,
   (returned_map_is_finalized_stored_is_prefused netOne netOne trivialFlow cf1 1
     (zeroImg 192 192) (zeroImg 192 192) (zeroImg 192 192, zeroImg 192 192) true
     (score_map_of netOne cf1) (score_map_of netOne cf1) rfl rfl).2⟩

/-- Claim C8 (counterexample): the claim says the composited pixel equals
`m * p + (1 - m) * b` exactly; but the pipeline casts the blend to `uint8`,
so at matte value 1/2 on the all-100 frame the produced pixel is 177 while
the blend value is 177.5. -/
theorem composite_truncation_counterexample :
    (composite matteHalf cf1).px 0 0 0 ≠
      matteHalf.px 0 0 * cf1.px 0 0 0 + (1 - matteHalf.px 0 0) * 255 := by
  have hfl : ⌊(355 / 2 : ℚ)⌋ = 177 := by
    rw [Int.floor_eq_iff]
    norm_num
  have htn : Int.toNat 177 % 256 = 177 := by decide
  simp [composite, repeat3, bg_im, toUint8, matteHalf, cf1, constImg3]
  norm_num [hfl, htn]

/-- Claim C8 (amended): for matte value `m` in `[0, 1]` and frame pixel `p` in
`[0, 255]`, the composited pixel produced by the video pipeline equals the
`uint8` truncation `⌊m * p + (1 - m) * b⌋` of the per-channel alpha blend
against the solid white background `b = 255`, with the single-channel matte
broadcast across the frame's channels (the blend value lies in `[0, 255]`, so
the truncation is exactly the floor, with no wrap-around). -/
theorem composite_alpha_blend (matte : Img) (frame : Img3) (i j : Nat) (c : Fin 3)
    (h0 : 0 ≤ matte.px i j) (h1 : matte.px i j ≤ 1)
    (hp0 : 0 ≤ frame.px i j c) (hp1 : frame.px i j c ≤ 255) :
    (composite matte frame).px i j c =
      (⌊matte.px i j * frame.px i j c + (1 - matte.px i j) * 255⌋ : ℚ) ∧
    ∀ c2 : Fin 3, (composite matte frame).px i j c2 =
      ((toUint8 (matte.px i j * frame.px i j c2 + (1 - matte.px i j) * 255) : ℕ) : ℚ) := by
  constructor
  · set m := matte.px i j with hm
    set p := frame.px i j c with hp
    have hv0 : 0 ≤ m * p + (1 - m) * 255 := by nlinarith
    have hv1 : m * p + (1 - m) * 255 ≤ 255 := by nlinarith
    have hf0 : 0 ≤ ⌊m * p + (1 - m) * 255⌋ := Int.floor_nonneg.mpr hv0
    have hf1 : ⌊m * p + (1 - m) * 255⌋ ≤ 255 := by
      have := Int.floor_le_floor hv1
      simpa using this
    have hlt : (⌊m * p + (1 - m) * 255⌋).toNat < 256 := by omega
    simp only [composite, repeat3, bg_im, toUint8]
    rw [Nat.mod_eq_of_lt hlt]
    exact_mod_cast congrArg (fun z : ℤ => (z : ℚ)) (Int.toNat_of_nonneg hf0)
  · intro c2
    rfl

/-- Witness for the amended C8: matte value 1 over the all-100 frame
composites to exactly 100. -/
theorem composite_alpha_blend_witness :
    ((0 : ℚ) ≤ matteOne.px 0 0 ∧ matteOne.px 0 0 ≤ 1 ∧
      (0 : ℚ) ≤ cf1.px 0 0 0 ∧ cf1.px 0 0 0 ≤ 255) ∧
    (composite matteOne cf1).px 0 0 0 =
      (⌊matteOne.px 0 0 * cf1.px 0 0 0 + (1 - matteOne.px 0 0) * 255⌋ : ℚ) :=
  ⟨⟨by norm_num [matteOne], by norm_num [matteOne], by norm_num [cf1, constImg3],
    by norm_num [cf1, constImg3]⟩,
   (composite_alpha_blend matteOne cf1 0 0 0 (by norm_num [matteOne])
     (by norm_num [matteOne]) (by norm_num [cf1, constImg3])
     (by norm_num [cf1, constImg3])).1⟩

/-- Helper: collecting the elements at indices `0, ..., m - 1` that exist
(the `try/except pass` of the batch collection) yields the first `m` elements. -/
theorem filterMap_range_getElem {α : Type} (l : List α) (m : Nat) :
    (List.range m).filterMap (fun i => l[i]?) = l.take m := by
  induction m with
  | zero => simp
  | succ k ih =>
    rw [List.range_succ, List.filterMap_append, ih, List.take_succ]
    cases h : l[k]? <;> simp [List.filterMap, h]

/-- Helper: batch `k` collects exactly the window of up to `b` elements
starting at offset `k * b`. -/
theorem filterMap_range_getElem_drop {α : Type} (l : List α) (b k : Nat) :
    (List.range b).filterMap (fun i => l[k * b + i]?) = (l.drop (k * b)).take b := by
  rw [← filterMap_range_getElem (l.drop (k * b)) b]
  exact congrArg (fun f => List.filterMap f (List.range b))
    (funext fun i => (List.getElem?_drop l (k * b) i).symm)

/-- Helper: when `N` windows of width `b` cover the list, processing the
windows in order processes every element exactly once, in order. -/
theorem flatMap_chunks_eq_map {α β : Type} (f : α → β) (b : Nat) :
    ∀ (N : Nat) (l : List α), l.length ≤ N * b →
      (List.range N).flatMap (fun k => ((l.drop (k * b)).take b).map f) = l.map f := by
  intro N
  induction N with
  | zero =>
    intro l hl
    have : l = [] := List.eq_nil_of_length_eq_zero (by omega)
    subst this
    simp
  | succ n ih =>
    intro l hl
    rw [List.range_succ_eq_map, List.flatMap_cons]
    have hsm : ∀ k : Nat, Nat.succ k * b = b + k * b := fun k => by
      rw [Nat.succ_mul, Nat.add_comm]
    have hlen : (l.drop b).length ≤ n * b := by
      rw [List.length_drop, Nat.sub_le_iff_le_add]
      calc l.length ≤ Nat.succ n * b := hl
        _ = n * b + b := Nat.succ_mul n b
    have hbody : (fun a => ((l.drop (Nat.succ a * b)).take b).map f)
        = fun a => (((l.drop b).drop (a * b)).take b).map f := funext fun a => by
      rw [hsm a, ← List.drop_drop]
    have hrest : (List.map Nat.succ (List.range n)).flatMap
        (fun k => ((l.drop (k * b)).take b).map f) = (l.drop b).map f := by
      rw [List.flatMap_map]
      calc (List.range n).flatMap (fun a => ((l.drop (Nat.succ a * b)).take b).map f)
          = (List.range n).flatMap (fun a => (((l.drop b).drop (a * b)).take b).map f) := by
            rw [hbody]
        _ = (l.drop b).map f := ih (l.drop b) hlen
    rw [hrest]
    simp only [Nat.zero_mul, List.drop_zero]
    rw [← List.map_append, List.take_append_drop]

/-- Helper: `ceil(n / b) * b` windows of width `b` cover `n` elements. -/
theorem le_ceil_mul (n b : Nat) (hb : 1 ≤ b) : n ≤ (n + b - 1) / b * b := by
  have h := Nat.div_add_mod (n + b - 1) b
  have h2 : (n + b - 1) % b < b := Nat.mod_lt _ (by omega)
  rw [Nat.mul_comm]
  generalize hq : b * ((n + b - 1) / b) = t at h
  omega

/-- Claim C9: for every input list and every `batch_size >= 1`, the batching
loop of `segment` produces exactly one result per input, in reading order,
including when the input count is not a multiple of the batch size (the final
partial batch is still fully processed, no element dropped or duplicated). -/
theorem segment_batching_complete {α β : Type} (f : α → β) (data : List α) (b : Nat)
    (hb : 1 ≤ b) :
    segment_res f data b = data.map f ∧ (segment_res f data b).length = data.length := by
  have hmain : segment_res f data b = data.map f := by
    unfold segment_res
    simp only [filterMap_range_getElem_drop]
    exact flatMap_chunks_eq_map f b _ data (le_ceil_mul data.length b hb)
  exact ⟨hmain, by rw [hmain, List.length_map]⟩

/-- Witness for C9: three inputs with batch size two (a final partial batch)
still yield all three results in order. -/
theorem segment_batching_complete_witness :
    (1 : Nat) ≤ 2 ∧ segment_res (fun n : Nat => n + 1) [10, 20, 30] 2 = [11, 21, 31] :=
  ⟨by norm_num,
   ((segment_batching_complete (fun n : Nat => n + 1) [10, 20, 30] 2 (by norm_num)).1).trans
     (by decide)⟩

/-- Claim C10: when `use_gpu` is requested and `CUDA_VISIBLE_DEVICES` is unset
or its first character is not a decimal digit, `segment` and `video_segment`
fail with `RuntimeError` before touching any input (the error carries no
partial results), while `video_stream_segment` performs no environment check
and proceeds directly with the GPU predictor. -/
theorem gpu_env_check {α β : Type} (env : Option String) (f : α → β) (images : List α)
    (b : Nat) (netCpu netGpu : NetT) (fe : FlowEst) (frames : List Img3) (frame_org : Img3)
    (prev_gray prev_cfd : Img) (hbad : cudaEnvOk env = false) :
    HumanSeg.segment env true f images b = .error .runtimeError ∧
    video_segment env true netCpu netGpu fe frames = .error .runtimeError ∧
    video_stream_segment netCpu netGpu fe frame_org 1 prev_gray prev_cfd true =
      .ok (vss_init_result netGpu frame_org) := by
  refine ⟨?_, ?_, vss_frame1_gpu netCpu netGpu fe frame_org prev_gray prev_cfd⟩
  · simp [HumanSeg.segment, hbad]
  · simp [video_segment, hbad]

/-- Witness for C10: with `CUDA_VISIBLE_DEVICES` set to a non-digit value the
batch entry point fails with `RuntimeError` while the per-frame entry point
still succeeds. -/
theorem gpu_env_check_witness :
    cudaEnvOk (some "x") = false ∧
    HumanSeg.segment (some "x") true (fun n : Nat => n) [] 1 = .error .runtimeError ∧
    video_stream_segment netOne netOne trivialFlow cf1 1 (zeroImg 192 192) (zeroImg 192 192)
      true = .ok (vss_init_result netOne cf1) :=
  ⟨by decide,
   (gpu_env_check (some "x") (fun n : Nat => n) [] 1 netOne netOne trivialFlow [] cf1
     (zeroImg 192 192) (zeroImg 192 192) (by decide)).1,
   (gpu_env_check (some "x") (fun n : Nat => n) [] 1 netOne netOne trivialFlow [] cf1
     (zeroImg 192 192) (zeroImg 192 192) (by decide)).2.2⟩
